import Mathlib

/-!
# Verification of the hex-buffer-serde adapters

Shallow embedding of the `Hex` (variable-length, `src/var_len.rs`) and
`ConstHex` (constant-length, `src/const_len.rs`) serde adapters, together
with the hex codec primitive they delegate to (the `hex` crate, an external
collaborator with the contract "encode N bytes into 2N lowercase ASCII hex
chars; decode case-insensitive hex, failing on odd length or a non-hex
character").

Bytes (`u8`) are modelled as `Nat` values; the `u8` range invariant
(`< 256`) and, for the constant-length adapter, the `[u8; N]` length
invariant are carried as proof fields of the stub structures, mirroring
what the Rust types guarantee.

The serde framework is modelled by its observable interface: a serializer
is characterized by its `is_human_readable` flag and consumes either a
string or a byte sequence (`Token`); a deserializer is characterized by the
same flag plus the input token it feeds to the adapter's visitor; the
error constructors `invalid_type`, `invalid_length` and `custom` become
the constructors of `DeError`.
-/

/-- A serde `Unexpected` value, as used by the adapters (only the string
variant is ever constructed by them). -/
inductive Unexpected where
  | str (s : String)
  deriving DecidableEq, Repr

/-- The serde error constructors used by the adapters: `Error::invalid_type`,
`Error::invalid_length` and `Error::custom`. -/
inductive DeError where
  | invalidType (unexp : Unexpected) (exp : String)
  | invalidLength (len : Nat) (exp : String)
  | custom (msg : String)
  deriving DecidableEq, Repr

/-- The message carried by a `DeError.custom` error; the other constructors
are rendered by the framework from their parts. -/
def DeError.customMessage : DeError → Option String
  | .custom msg => some msg
  | _ => none

/-- A wire token consumed or produced by the adapter: either a string
(`serialize_str` / `deserialize_str`) or a byte sequence
(`serialize_bytes` / `deserialize_bytes` / `deserialize_byte_buf`). -/
inductive Token where
  | str (s : String)
  | bytes (b : List Nat)
  deriving DecidableEq, Repr

/-! ## The hex codec primitive (`hex` crate) -/

/-- Lowercase hex digit for a value `n < 16`: the `hex` crate's encode
table `"0123456789abcdef"`. -/
def hexDigitChar (n : Nat) : Char :=
  if n < 10 then Char.ofNat (48 + n) else Char.ofNat (87 + n)

/-- Hex encoding of one byte: high nibble then low nibble. -/
def hexEncodeByte (b : Nat) : List Char :=
  [hexDigitChar (b / 16), hexDigitChar (b % 16)]

/-- `hex::encode`: lowercase hex string of length twice the byte count. -/
def hexEncode (bs : List Nat) : String :=
  String.mk (bs.flatMap hexEncodeByte)

/-- Value of a hex digit, case-insensitive; `none` on a non-hex character
(the `hex` crate's `val` helper). -/
def hexVal (c : Char) : Option Nat :=
  if ('0' ≤ c) ∧ (c ≤ '9') then some (c.toNat - 48)
  else if ('a' ≤ c) ∧ (c ≤ 'f') then some (c.toNat - 87)
  else if ('A' ≤ c) ∧ (c ≤ 'F') then some (c.toNat - 55)
  else none

/-- Hex decoding of a character list, two characters per byte; `none` on
odd length or a non-hex character. -/
def hexDecodeChars : List Char → Option (List Nat)
  | [] => some []
  | [_] => none
  | hi :: lo :: rest =>
    match hexVal hi, hexVal lo, hexDecodeChars rest with
    | some h, some l, some tail => some ((16 * h + l) :: tail)
    | _, _, _ => none

/-- `hex::decode`: case-insensitive hex to bytes; fails on odd length or a
non-hex character. The adapters discard the error kind, so the failure is
modelled as `none`. -/
def hexDecode (s : String) : Option (List Nat) :=
  hexDecodeChars s.data

/-- `hex::decode_to_slice` into a buffer of length `outLen`: fails when the
input length is odd, when it is not twice the buffer length, or on a
non-hex character. The adapter maps every failure to the same error, so
the kinds are collapsed into `none`. -/
def hexDecodeToSlice (s : String) (outLen : Nat) : Option (List Nat) :=
  if s.length % 2 ≠ 0 then none
  else if s.length / 2 ≠ outLen then none
  else hexDecodeChars s.data

/-- `hex::encode_to_slice` into a buffer of length `outLen`: fails exactly
when `outLen` is not twice the input length, else writes the lowercase hex
characters. -/
def hexEncodeToSlice (input : List Nat) (outLen : Nat) : Option (List Char) :=
  if outLen ≠ input.length * 2 then none
  else some (input.flatMap hexEncodeByte)

/-! ## The variable-length adapter (`Hex` trait, `src/var_len.rs`) -/

/-- A stub implementing the `Hex<T>` contract of `src/var_len.rs`:
`create_bytes` yields a byte view of the value (a `Cow<[u8]>`, hence every
element is a `u8`, i.e. `< 256`), and `from_bytes` attempts the reverse
conversion; its error is kept as its display message (`Error: fmt::Display`
is only ever consumed via `Error::custom`). -/
structure HexStub (T : Type) where
  createBytes : T → List Nat
  createBytes_byte : ∀ v, ∀ b ∈ createBytes v, b < 256
  fromBytes : List Nat → Except String T

namespace Hex

/-- `HexVisitor::visit_str` of `src/var_len.rs`: hex-decode, mapping any
decode failure to `invalid_type(Unexpected::Str(value), "hex-encoded byte
array")`. -/
def hexVisitorVisitStr (value : String) : Except DeError (List Nat) :=
  match hexDecode value with
  | some bytes => .ok bytes
  | none => .error (.invalidType (.str value) "hex-encoded byte array")

/-- `HexVisitor::visit_bytes` of `src/var_len.rs`: the raw-byte fallback
used by flattened fields; returns the bytes unchanged. -/
def hexVisitorVisitBytes (value : List Nat) : Except DeError (List Nat) :=
  .ok value

/-- `BytesVisitor::visit_bytes` / `visit_byte_buf` of `src/var_len.rs`:
returns the bytes unchanged. -/
def bytesVisitorVisitBytes (value : List Nat) : Except DeError (List Nat) :=
  .ok value

/-- `Hex::serialize`: bytes of the value, hex-encoded into a string for a
human-readable serializer and emitted raw otherwise. -/
def serialize {T : Type} (stub : HexStub T) (isHumanReadable : Bool) (v : T) :
    Token :=
  let value := stub.createBytes v
  if isHumanReadable then .str (hexEncode value)
  else .bytes value

/-- The `maybe_bytes` stage of `Hex::deserialize`: visitor dispatch. On the
human-readable path the deserializer drives `HexVisitor` (strings through
`visit_str`, byte input through the `visit_bytes` fallback); on the binary
path it drives `BytesVisitor`, whose default `visit_str` (no override in
the source) is serde's `invalid_type(Unexpected::Str(v), &self)` with the
visitor's expecting message `"byte array"`. -/
def visitorStage (isHumanReadable : Bool) (input : Token) :
    Except DeError (List Nat) :=
  if isHumanReadable then
    match input with
    | .str s => hexVisitorVisitStr s
    | .bytes b => hexVisitorVisitBytes b
  else
    match input with
    | .str s => .error (.invalidType (.str s) "byte array")
    | .bytes b => bytesVisitorVisitBytes b

/-- `Hex::deserialize`: obtain bytes through the mode-appropriate visitor,
then hand them to the stub's `from_bytes`, mapping its error through
`Error::custom`. -/
def deserialize {T : Type} (stub : HexStub T) (isHumanReadable : Bool)
    (input : Token) : Except DeError T :=
  (visitorStage isHumanReadable input).bind fun bytes =>
    (stub.fromBytes bytes).mapError DeError.custom

end Hex

/-! ## The constant-length adapter (`ConstHex` trait, `src/const_len.rs`) -/

/-- A stub implementing the `ConstHex<T, N>` contract of
`src/const_len.rs`: `create_bytes` yields a `[u8; N]` (modelled as a list
of length `N` whose elements are `< 256`), and `from_bytes` consumes such
an array; its error is kept as its display message. -/
structure ConstHexStub (T : Type) (N : Nat) where
  createBytes : T → List Nat
  createBytes_length : ∀ v, (createBytes v).length = N
  createBytes_byte : ∀ v, ∀ b ∈ createBytes v, b < 256
  fromBytes : List Nat → Except String T

namespace ConstHex

/-- Length of the `&mut [u8]` produced by `as_u8_slice` from a
`[u16; n]` buffer: `0` for the empty slice special case, else
`n * size_of::<u16>()`. -/
def asU8SliceLength (n : Nat) : Nat :=
  if n = 0 then 0 else n * 2

/-- The `expecting` message of `HexVisitor<M>` in `src/const_len.rs`. -/
def hexVisitorExpecting (m : Nat) : String :=
  "hex-encoded byte array of length " ++ toString m

/-- The `expecting` message of `BytesVisitor<M>` in `src/const_len.rs`. -/
def bytesVisitorExpecting (m : Nat) : String :=
  "byte array of length " ++ toString m

/-- `HexVisitor::<M>::visit_str`: `hex::decode_to_slice` into a local
`[u8; M]`, mapping any failure to
`invalid_type(Unexpected::Str(value), &self)`. -/
def hexVisitorVisitStr (m : Nat) (value : String) :
    Except DeError (List Nat) :=
  match hexDecodeToSlice value m with
  | some decoded => .ok decoded
  | none => .error (.invalidType (.str value) (hexVisitorExpecting m))

/-- `HexVisitor::<M>::visit_bytes`: `<[u8; M]>::try_from(value)`, which
succeeds exactly when the slice length is `M`, mapping failure to
`invalid_length(value.len(), &self)`. -/
def hexVisitorVisitBytes (m : Nat) (value : List Nat) :
    Except DeError (List Nat) :=
  if value.length = m then .ok value
  else .error (.invalidLength value.length (hexVisitorExpecting m))

/-- `BytesVisitor::<M>::visit_bytes`: `<[u8; M]>::try_from(value)`, mapping
failure to `invalid_length(value.len(), &self)`. -/
def bytesVisitorVisitBytes (m : Nat) (value : List Nat) :
    Except DeError (List Nat) :=
  if value.length = m then .ok value
  else .error (.invalidLength value.length (bytesVisitorExpecting m))

/-- `ConstHex::serialize`. The human-readable path builds a `[0u16; N]`
buffer, reinterprets it as `2N` bytes, `hex::encode_to_slice`s into it and
`unwrap`s, then emits the buffer as a string; a hypothetical
`encode_to_slice` failure is the `unwrap` panic, modelled as `none`. The
binary path emits the bytes raw. -/
def serialize {T : Type} {N : Nat} (stub : ConstHexStub T N)
    (isHumanReadable : Bool) (v : T) : Option Token :=
  let value := stub.createBytes v
  if isHumanReadable then
    match hexEncodeToSlice value (asU8SliceLength N) with
    | some hexSlice => some (.str (String.mk hexSlice))
    | none => none
  else
    some (.bytes value)

/-- The `maybe_bytes` stage of `ConstHex::deserialize`: the human-readable
path drives `HexVisitor::<N>` (strings through `visit_str`, byte input
through `visit_bytes`), the binary path drives `BytesVisitor::<N>`, whose
default `visit_str` (no override in the source) is serde's
`invalid_type(Unexpected::Str(v), &self)`. -/
def visitorStage (N : Nat) (isHumanReadable : Bool) (input : Token) :
    Except DeError (List Nat) :=
  if isHumanReadable then
    match input with
    | .str s => hexVisitorVisitStr N s
    | .bytes b => hexVisitorVisitBytes N b
  else
    match input with
    | .str s => .error (.invalidType (.str s) (bytesVisitorExpecting N))
    | .bytes b => bytesVisitorVisitBytes N b

/-- `ConstHex::deserialize`: obtain the `[u8; N]` through the
mode-appropriate visitor, then hand it to the stub's `from_bytes`, mapping
its error through `Error::custom`. -/
def deserialize {T : Type} {N : Nat} (stub : ConstHexStub T N)
    (isHumanReadable : Bool) (input : Token) : Except DeError T :=
  (visitorStage N isHumanReadable input).bind fun bytes =>
    (stub.fromBytes bytes).mapError DeError.custom

end ConstHex

/-! ## Concrete stubs used to exercise the adapters -/

/-- A concrete variable-length stub over a one-value type whose byte view
is `[0x00, 0xff]`; `from_bytes` accepts exactly that view. -/
def unitHexStub : HexStub Unit where
  createBytes _ := [0, 255]
  createBytes_byte := by
    intro v b hb
    simp only [List.mem_cons, List.not_mem_nil, or_false] at hb
    rcases hb with h | h <;> omega
  fromBytes bs := if bs = [0, 255] then .ok () else .error "unexpected buffer"

/-- A concrete variable-length stub whose `from_bytes` always fails with a
fixed domain-error message. -/
def failingHexStub : HexStub Unit where
  createBytes _ := [1]
  createBytes_byte := by
    intro v b hb
    simp only [List.mem_cons, List.not_mem_nil, or_false] at hb
    omega
  fromBytes _ := .error "not a valid public key"

/-- A concrete constant-length stub (`N = 2`) over a one-value type whose
byte array is `[0xab, 0xcd]`; `from_bytes` accepts exactly that array. -/
def unitConstHexStub : ConstHexStub Unit 2 where
  createBytes _ := [171, 205]
  createBytes_length := by intro v; rfl
  createBytes_byte := by
    intro v b hb
    simp only [List.mem_cons, List.not_mem_nil, or_false] at hb
    rcases hb with h | h <;> omega
  fromBytes bs := if bs = [171, 205] then .ok () else .error "unexpected array"

/-- A concrete constant-length stub (`N = 2`) whose `from_bytes` always
fails with a fixed domain-error message. -/
def failingConstHexStub : ConstHexStub Unit 2 where
  createBytes _ := [7, 9]
  createBytes_length := by intro v; rfl
  createBytes_byte := by
    intro v b hb
    simp only [List.mem_cons, List.not_mem_nil, or_false] at hb
    rcases hb with h | h <;> omega
  fromBytes _ := .error "checksum mismatch"

/-- A character is a lowercase hex digit: in `0..9` or `a..f`. -/
def isLowerHexDigit (c : Char) : Bool :=
  (('0' ≤ c) && (c ≤ '9')) || (('a' ≤ c) && (c ≤ 'f'))

/-! ## Lemmas about the hex codec -/

/-- Decoding a digit character produced by the encode table recovers its
value. -/
theorem hexVal_hexDigitChar {n : Nat} (h : n < 16) :
    hexVal (hexDigitChar n) = some n := by
  interval_cases n <;> decide

/-- The encode table produces lowercase ASCII hex digits. -/
theorem hexDigitChar_lower {n : Nat} (h : n < 16) :
    isLowerHexDigit (hexDigitChar n) = true ∧ (hexDigitChar n).toNat < 128 := by
  interval_cases n <;> decide

/-- Encoding yields two characters per byte. -/
theorem length_flatMap_hexEncodeByte (bs : List Nat) :
    (bs.flatMap hexEncodeByte).length = 2 * bs.length := by
  induction bs with
  | nil => rfl
  | cons b rest ih =>
    simp only [List.flatMap_cons, List.length_append, ih, hexEncodeByte,
      List.length_cons, List.length_nil]
    omega

/-- The hex string of a byte list has twice its length. -/
theorem hexEncode_length (bs : List Nat) :
    (hexEncode bs).length = 2 * bs.length :=
  length_flatMap_hexEncodeByte bs

/-- Character-level decode inverts character-level encode on byte lists. -/
theorem hexDecodeChars_encode (bs : List Nat) (h : ∀ b ∈ bs, b < 256) :
    hexDecodeChars (bs.flatMap hexEncodeByte) = some bs := by
  induction bs with
  | nil => rfl
  | cons b rest ih =>
    have hb : b < 256 := h b (List.mem_cons_self b rest)
    have h1 : b / 16 < 16 := by omega
    have h2 : b % 16 < 16 := Nat.mod_lt _ (by omega)
    have ih2 := ih fun x hx => h x (List.mem_cons_of_mem b hx)
    have hdm : 16 * (b / 16) + b % 16 = b := Nat.div_add_mod b 16
    have key : (b :: rest).flatMap hexEncodeByte
        = hexDigitChar (b / 16) :: hexDigitChar (b % 16)
          :: rest.flatMap hexEncodeByte := by
      simp [hexEncodeByte]
    rw [key]
    simp only [hexDecodeChars, hexVal_hexDigitChar h1,
      hexVal_hexDigitChar h2, ih2, hdm]

/-- `hex::decode` inverts `hex::encode` on byte lists. -/
theorem hexDecode_hexEncode (bs : List Nat) (h : ∀ b ∈ bs, b < 256) :
    hexDecode (hexEncode bs) = some bs :=
  hexDecodeChars_encode bs h

/-- An odd-length character list does not decode. -/
theorem hexDecodeChars_odd :
    ∀ cs : List Char, cs.length % 2 = 1 → hexDecodeChars cs = none
  | [], h => by simp at h
  | [_], _ => rfl
  | hi :: lo :: rest, h => by
    have hr : rest.length % 2 = 1 := by
      simp only [List.length_cons] at h
      omega
    have ht := hexDecodeChars_odd rest hr
    cases h1 : hexVal hi <;> cases h2 : hexVal lo <;>
      simp [hexDecodeChars, h1, h2, ht]

/-- A character list containing a non-hex character does not decode. -/
theorem hexDecodeChars_badChar :
    ∀ cs : List Char, (∃ c ∈ cs, hexVal c = none) → hexDecodeChars cs = none
  | [], h => by simp at h
  | [_], _ => rfl
  | hi :: lo :: rest, h => by
    rcases h with ⟨c, hc, hcnone⟩
    simp only [List.mem_cons] at hc
    rcases hc with rfl | rfl | hcr
    · simp [hexDecodeChars, hcnone]
    · cases h1 : hexVal hi <;> simp [hexDecodeChars, h1, hcnone]
    · have ht := hexDecodeChars_badChar rest ⟨c, hcr, hcnone⟩
      cases h1 : hexVal hi <;> cases h2 : hexVal lo <;>
        simp [hexDecodeChars, h1, h2, ht]

/-- `hex::decode_to_slice` inverts `hex::encode` into a buffer of the
original byte length. -/
theorem hexDecodeToSlice_encode (bs : List Nat) (h : ∀ b ∈ bs, b < 256) :
    hexDecodeToSlice (hexEncode bs) bs.length = some bs := by
  unfold hexDecodeToSlice
  rw [hexEncode_length]
  rw [if_neg (by omega)]
  rw [if_neg (by omega)]
  exact hexDecodeChars_encode bs h

/-- Variant of `hexDecodeToSlice_encode` with the buffer length given as a
separate equation (as it arrives from a stub's length invariant). -/
theorem hexDecodeToSlice_encode_of_length (bs : List Nat) (n : Nat)
    (hn : bs.length = n) (h : ∀ b ∈ bs, b < 256) :
    hexDecodeToSlice (hexEncode bs) n = some bs := by
  subst hn
  exact hexDecodeToSlice_encode bs h

/-- `hex::decode_to_slice` into a buffer of length `N` fails whenever the
string length differs from `2 * N`. -/
theorem hexDecodeToSlice_length_ne (s : String) (N : Nat)
    (h : s.length ≠ 2 * N) : hexDecodeToSlice s N = none := by
  unfold hexDecodeToSlice
  split
  · rfl
  · next h1 =>
    rw [if_pos (by omega)]

/-- `hex::encode_to_slice` into a buffer of exactly twice the input length
succeeds and writes the same characters as `hex::encode`. -/
theorem hexEncodeToSlice_eq (bs : List Nat) :
    hexEncodeToSlice bs (bs.length * 2) = some (bs.flatMap hexEncodeByte) := by
  unfold hexEncodeToSlice
  rw [if_neg (by omega)]

/-- Every character of an emitted hex string is a lowercase ASCII hex
digit. -/
theorem hexEncode_chars (bs : List Nat) (h : ∀ b ∈ bs, b < 256) :
    ∀ c ∈ (hexEncode bs).data, isLowerHexDigit c = true ∧ c.toNat < 128 := by
  intro c hc
  have hc2 : c ∈ bs.flatMap hexEncodeByte := hc
  rcases List.mem_flatMap.mp hc2 with ⟨b, hb, hcb⟩
  have hblt := h b hb
  have h1 : b / 16 < 16 := by omega
  have h2 : b % 16 < 16 := Nat.mod_lt _ (by omega)
  simp only [hexEncodeByte, List.mem_cons, List.not_mem_nil, or_false] at hcb
  rcases hcb with rfl | rfl
  · exact hexDigitChar_lower h1
  · exact hexDigitChar_lower h2

/-! ## Adapter-level lemmas -/

/-- The `as_u8_slice` view of an `n`-element `u16` buffer has `2n` bytes,
in the empty special case as well as the general one. -/
theorem asU8SliceLength_eq (n : Nat) : ConstHex.asU8SliceLength n = n * 2 := by
  unfold ConstHex.asU8SliceLength
  split <;> omega

/-- The human-readable path of `ConstHex::serialize` always succeeds and
emits the lowercase hex string of the value's bytes. -/
theorem constHex_serialize_human {T : Type} {N : Nat}
    (stub : ConstHexStub T N) (v : T) :
    ConstHex.serialize stub true v
      = some (.str (hexEncode (stub.createBytes v))) := by
  have hlen := stub.createBytes_length v
  unfold ConstHex.serialize hexEncodeToSlice
  rw [if_pos rfl, asU8SliceLength_eq, if_neg (by omega)]
  rfl

/-- On the binary path, `Hex::deserialize` hands byte input unchanged to
`from_bytes`. -/
theorem hex_deserialize_binary_bytes {T : Type} (stub : HexStub T)
    (b : List Nat) :
    Hex.deserialize stub false (.bytes b)
      = (stub.fromBytes b).mapError DeError.custom := rfl

/-- On the human-readable path, string input goes through
`HexVisitor::visit_str` and then `from_bytes`. -/
theorem hex_deserialize_human_str {T : Type} (stub : HexStub T) (s : String) :
    Hex.deserialize stub true (.str s)
      = (Hex.hexVisitorVisitStr s).bind
          (fun bytes => (stub.fromBytes bytes).mapError DeError.custom) := rfl

/-- Claim C1: for every stub implementing the adapter contract and every
value such that `from_bytes(create_bytes(v))` succeeds and equals `v`,
serializing and then deserializing under a single format yields `v`, in
human-readable (hex-string) and binary (raw-bytes) mode alike, for the
variable-length `Hex` adapter and the constant-length `ConstHex` adapter. -/
theorem C1_round_trip_single_format {T U : Type} {N : Nat}
    (stubV : HexStub T) (v : T)
    (hv : stubV.fromBytes (stubV.createBytes v) = .ok v)
    (stubC : ConstHexStub U N) (w : U)
    (hw : stubC.fromBytes (stubC.createBytes w) = .ok w)
    (hr : Bool) :
    Hex.deserialize stubV hr (Hex.serialize stubV hr v) = .ok v ∧
    (ConstHex.serialize stubC hr w).map (ConstHex.deserialize stubC hr)
      = some (.ok w) := by
  have hdecV := hexDecode_hexEncode _ (stubV.createBytes_byte v)
  have hlen := stubC.createBytes_length w
  have hdecC : hexDecodeToSlice (hexEncode (stubC.createBytes w)) N
      = some (stubC.createBytes w) :=
    hexDecodeToSlice_encode_of_length _ _ hlen (stubC.createBytes_byte w)
  cases hr with
  | false =>
    refine ⟨?_, ?_⟩
    · show Hex.deserialize stubV false (.bytes (stubV.createBytes v)) = .ok v
      rw [hex_deserialize_binary_bytes, hv]
      rfl
    · show ((some (Token.bytes (stubC.createBytes w)) : Option Token).map
          (ConstHex.deserialize stubC false)) = some (.ok w)
      rw [Option.map_some']
      refine congrArg some ?_
      show (ConstHex.bytesVisitorVisitBytes N (stubC.createBytes w)).bind
          (fun bytes => (stubC.fromBytes bytes).mapError DeError.custom)
        = .ok w
      unfold ConstHex.bytesVisitorVisitBytes
      rw [if_pos hlen]
      show (stubC.fromBytes (stubC.createBytes w)).mapError DeError.custom
        = Except.ok w
      rw [hw]
      rfl
  | true =>
    refine ⟨?_, ?_⟩
    · show Hex.deserialize stubV true
          (.str (hexEncode (stubV.createBytes v))) = .ok v
      rw [hex_deserialize_human_str]
      unfold Hex.hexVisitorVisitStr
      rw [hdecV]
      show (stubV.fromBytes (stubV.createBytes v)).mapError DeError.custom
        = Except.ok v
      rw [hv]
      rfl
    · rw [constHex_serialize_human, Option.map_some']
      refine congrArg some ?_
      show (ConstHex.hexVisitorVisitStr N
            (hexEncode (stubC.createBytes w))).bind
          (fun bytes => (stubC.fromBytes bytes).mapError DeError.custom)
        = .ok w
      unfold ConstHex.hexVisitorVisitStr
      rw [hdecC]
      show (stubC.fromBytes (stubC.createBytes w)).mapError DeError.custom
        = Except.ok w
      rw [hw]
      rfl

/-- Witness for C1 at the concrete stubs: the round-trip hypotheses hold
and both adapters round-trip in both modes. -/
theorem C1_round_trip_single_format_witness :
    unitHexStub.fromBytes (unitHexStub.createBytes ()) = .ok () ∧
    unitConstHexStub.fromBytes (unitConstHexStub.createBytes ()) = .ok () ∧
    (Hex.deserialize unitHexStub true (Hex.serialize unitHexStub true ())
        = .ok () ∧
      (ConstHex.serialize unitConstHexStub true ()).map
          (ConstHex.deserialize unitConstHexStub true) = some (.ok ())) ∧
    (Hex.deserialize unitHexStub false (Hex.serialize unitHexStub false ())
        = .ok () ∧
      (ConstHex.serialize unitConstHexStub false ()).map
          (ConstHex.deserialize unitConstHexStub false) = some (.ok ())) :=
  ⟨rfl, rfl,
    C1_round_trip_single_format unitHexStub () rfl unitConstHexStub () rfl
      true,
    C1_round_trip_single_format unitHexStub () rfl unitConstHexStub () rfl
      false⟩

/-- Claim C2: for every constant length `N`, binary deserialization of a
byte sequence of length `≠ N` fails with `invalid_length`, and
human-readable deserialization of a string of length `≠ 2N` fails with
`invalid_type`; no padding or truncation happens. -/
theorem C2_const_length_enforcement {T : Type} {N : Nat}
    (stub : ConstHexStub T N) (b : List Nat) (hb : b.length ≠ N)
    (s : String) (hs : s.length ≠ 2 * N) :
    ConstHex.deserialize stub false (.bytes b)
      = .error (.invalidLength b.length (ConstHex.bytesVisitorExpecting N)) ∧
    ConstHex.deserialize stub true (.str s)
      = .error (.invalidType (.str s) (ConstHex.hexVisitorExpecting N)) := by
  constructor
  · show (ConstHex.bytesVisitorVisitBytes N b).bind
        (fun bytes => (stub.fromBytes bytes).mapError DeError.custom)
      = .error (.invalidLength b.length (ConstHex.bytesVisitorExpecting N))
    unfold ConstHex.bytesVisitorVisitBytes
    rw [if_neg hb]
    rfl
  · show (ConstHex.hexVisitorVisitStr N s).bind
        (fun bytes => (stub.fromBytes bytes).mapError DeError.custom)
      = .error (.invalidType (.str s) (ConstHex.hexVisitorExpecting N))
    unfold ConstHex.hexVisitorVisitStr
    rw [hexDecodeToSlice_length_ne s N hs]
    rfl

/-- Witness for C2 at `N = 2`: a 3-byte binary payload and a 6-character
hex string are both rejected with the respective errors. -/
theorem C2_const_length_enforcement_witness :
    ([1, 2, 3] : List Nat).length ≠ 2 ∧
    ("0b0b0b" : String).length ≠ 2 * 2 ∧
    ConstHex.deserialize unitConstHexStub false (.bytes [1, 2, 3])
      = .error (.invalidLength 3 (ConstHex.bytesVisitorExpecting 2)) ∧
    ConstHex.deserialize unitConstHexStub true (.str "0b0b0b")
      = .error (.invalidType (.str "0b0b0b")
          (ConstHex.hexVisitorExpecting 2)) := by
  have h := C2_const_length_enforcement unitConstHexStub [1, 2, 3]
    (by decide) "0b0b0b" (by decide)
  exact ⟨by decide, by decide, h.1, h.2⟩

/-- Claim C3: under a binary serializer both adapters emit exactly the
bytes returned by `create_bytes`, with no framing or transformation added
by the adapter. -/
theorem C3_binary_transparency {T U : Type} {N : Nat}
    (stubV : HexStub T) (v : T) (stubC : ConstHexStub U N) (w : U) :
    Hex.serialize stubV false v = .bytes (stubV.createBytes v) ∧
    ConstHex.serialize stubC false w
      = some (.bytes (stubC.createBytes w)) :=
  ⟨rfl, rfl⟩

/-- Claim C4: under a human-readable serializer both adapters emit a
string token of lowercase ASCII hex characters of length exactly twice the
length of `create_bytes`. -/
theorem C4_hex_form {T U : Type} {N : Nat}
    (stubV : HexStub T) (v : T) (stubC : ConstHexStub U N) (w : U) :
    (∃ s, Hex.serialize stubV true v = .str s ∧
      s.length = 2 * (stubV.createBytes v).length ∧
      ∀ c ∈ s.data, isLowerHexDigit c = true ∧ c.toNat < 128) ∧
    (∃ t, ConstHex.serialize stubC true w = some (.str t) ∧
      t.length = 2 * (stubC.createBytes w).length ∧
      ∀ c ∈ t.data, isLowerHexDigit c = true ∧ c.toNat < 128) := by
  constructor
  · exact ⟨hexEncode (stubV.createBytes v), rfl, hexEncode_length _,
      hexEncode_chars _ (stubV.createBytes_byte v)⟩
  · exact ⟨hexEncode (stubC.createBytes w), constHex_serialize_human stubC w,
      hexEncode_length _, hexEncode_chars _ (stubC.createBytes_byte w)⟩

/-- Counterexample to C5: raw bytes presented to the constant-length
adapter's human-readable path ARE handled by `HexVisitor::visit_bytes`: a
length-2 byte token deserializes successfully through the `N = 2` stub,
and a length-3 byte token is rejected with `invalid_length` (the byte
fallback's length check), not left unhandled. -/
theorem C5_counterexample :
    ConstHex.deserialize unitConstHexStub true (.bytes [171, 205])
        = .ok () ∧
    ConstHex.deserialize unitConstHexStub true (.bytes [1, 2, 3])
      = .error (.invalidLength 3 (ConstHex.hexVisitorExpecting 2)) :=
  ⟨rfl, rfl⟩

/-- Amended C5: the constant-length adapter's human-readable string
visitor DOES accept a raw byte input path (`HexVisitor::visit_bytes`), but
unlike the variable-length adapter it enforces the exact length: bytes of
length `N` are returned unchanged and any other length fails with
`invalid_length`. -/
theorem C5_const_byte_fallback_amended (N : Nat) (b c : List Nat)
    (hb : b.length = N) (hc : c.length ≠ N) :
    ConstHex.hexVisitorVisitBytes N b = .ok b ∧
    ConstHex.hexVisitorVisitBytes N c
      = .error (.invalidLength c.length (ConstHex.hexVisitorExpecting N)) := by
  constructor
  · unfold ConstHex.hexVisitorVisitBytes
    rw [if_pos hb]
  · unfold ConstHex.hexVisitorVisitBytes
    rw [if_neg hc]

/-- Witness for the amended C5 at `N = 2`. -/
theorem C5_const_byte_fallback_amended_witness :
    ([11, 22] : List Nat).length = 2 ∧ ([9] : List Nat).length ≠ 2 ∧
    ConstHex.hexVisitorVisitBytes 2 [11, 22] = .ok [11, 22] ∧
    ConstHex.hexVisitorVisitBytes 2 [9]
      = .error (.invalidLength 1 (ConstHex.hexVisitorExpecting 2)) := by
  have h := C5_const_byte_fallback_amended 2 [11, 22] [9]
    (by decide) (by decide)
  exact ⟨by decide, by decide, h.1, h.2⟩

/-- Claim C6: a string that is not well-formed hex (odd length or a
non-hex character) makes the variable-length human-readable path fail with
`invalid_type`, carrying the original string as the unexpected value and
`"hex-encoded byte array"` as the expectation. -/
theorem C6_var_hex_parse_error {T : Type} (stub : HexStub T) (s : String)
    (h : s.length % 2 = 1 ∨ ∃ c ∈ s.data, hexVal c = none) :
    Hex.deserialize stub true (.str s)
      = .error (.invalidType (.str s) "hex-encoded byte array") := by
  have hdec : hexDecode s = none := by
    rcases h with h | h
    · exact hexDecodeChars_odd s.data h
    · exact hexDecodeChars_badChar s.data h
  rw [hex_deserialize_human_str]
  unfold Hex.hexVisitorVisitStr
  rw [hdec]
  rfl

/-- Witness for C6 at the odd-length string "c0ffe". -/
theorem C6_var_hex_parse_error_witness :
    (("c0ffe" : String).length % 2 = 1 ∨
      ∃ c ∈ ("c0ffe" : String).data, hexVal c = none) ∧
    Hex.deserialize unitHexStub true (.str "c0ffe")
      = .error (.invalidType (.str "c0ffe") "hex-encoded byte array") :=
  ⟨Or.inl (by decide),
    C6_var_hex_parse_error unitHexStub "c0ffe" (Or.inl (by decide))⟩

/-- Claim C7: the variable-length adapter's human-readable string visitor
returns byte input unchanged (no hex decode, no possible error on this
path), so the whole human-readable deserialization of a byte token reduces
to `from_bytes` on those very bytes. -/
theorem C7_var_byte_fallback {T : Type} (stub : HexStub T) (b : List Nat) :
    Hex.hexVisitorVisitBytes b = .ok b ∧
    Hex.deserialize stub true (.bytes b)
      = (stub.fromBytes b).mapError DeError.custom :=
  ⟨rfl, rfl⟩

/-- Claim C8: when the visitor stage succeeds and the stub's `from_bytes`
fails with message `M`, both adapters fail through the custom-error
channel carrying `M` unchanged. -/
theorem C8_domain_error_passthrough {T U : Type} {N : Nat}
    (stubV : HexStub T) (hrV : Bool) (tokV : Token) (bsV : List Nat)
    (M : String) (hobt : Hex.visitorStage hrV tokV = .ok bsV)
    (herr : stubV.fromBytes bsV = .error M)
    (stubC : ConstHexStub U N) (hrC : Bool) (tokC : Token) (bsC : List Nat)
    (M2 : String) (hobtC : ConstHex.visitorStage N hrC tokC = .ok bsC)
    (herrC : stubC.fromBytes bsC = .error M2) :
    Hex.deserialize stubV hrV tokV = .error (.custom M) ∧
    (DeError.custom M).customMessage = some M ∧
    ConstHex.deserialize stubC hrC tokC = .error (.custom M2) ∧
    (DeError.custom M2).customMessage = some M2 := by
  refine ⟨?_, rfl, ?_, rfl⟩
  · unfold Hex.deserialize
    rw [hobt]
    show (stubV.fromBytes bsV).mapError DeError.custom = .error (.custom M)
    rw [herr]
    rfl
  · unfold ConstHex.deserialize
    rw [hobtC]
    show (stubC.fromBytes bsC).mapError DeError.custom = .error (.custom M2)
    rw [herrC]
    rfl

/-- Witness for C8 at the always-failing stubs. -/
theorem C8_domain_error_passthrough_witness :
    Hex.visitorStage true (.bytes [1]) = .ok [1] ∧
    failingHexStub.fromBytes [1] = .error "not a valid public key" ∧
    ConstHex.visitorStage 2 false (.bytes [7, 9]) = .ok [7, 9] ∧
    failingConstHexStub.fromBytes [7, 9] = .error "checksum mismatch" ∧
    Hex.deserialize failingHexStub true (.bytes [1])
      = .error (.custom "not a valid public key") ∧
    ConstHex.deserialize failingConstHexStub false (.bytes [7, 9])
      = .error (.custom "checksum mismatch") := by
  have h := C8_domain_error_passthrough failingHexStub true (.bytes [1]) [1]
    "not a valid public key" rfl rfl failingConstHexStub false
    (.bytes [7, 9]) [7, 9] "checksum mismatch" rfl rfl
  exact ⟨rfl, rfl, rfl, rfl, h.1, h.2.2.1⟩

/-- Claim C9: for every `N` (including `N = 0`) the byte view of the
`[u16; N]` stack buffer has exactly `2N` bytes, so `hex::encode_to_slice`
always succeeds (the `unwrap` never panics), the `2N` emitted characters
are ASCII, and the human-readable serialization path never fails for
reasons internal to the adapter. -/
theorem C9_const_serialize_total {T : Type} {N : Nat}
    (stub : ConstHexStub T N) (v : T) :
    ConstHex.asU8SliceLength N = 2 * N ∧
    (∃ chars,
      hexEncodeToSlice (stub.createBytes v) (ConstHex.asU8SliceLength N)
          = some chars ∧
      chars.length = 2 * N ∧ ∀ c ∈ chars, c.toNat < 128) ∧
    ConstHex.serialize stub true v
      = some (.str (hexEncode (stub.createBytes v))) := by
  have hlen := stub.createBytes_length v
  refine ⟨by rw [asU8SliceLength_eq]; omega, ?_,
    constHex_serialize_human stub v⟩
  refine ⟨(stub.createBytes v).flatMap hexEncodeByte, ?_, ?_, ?_⟩
  · unfold hexEncodeToSlice
    rw [asU8SliceLength_eq, if_neg (by omega)]
  · rw [length_flatMap_hexEncodeByte, hlen]
  · intro c hc
    exact (hexEncode_chars _ (stub.createBytes_byte v) c hc).2

/-- Claim C10: raw bytes presented to the constant-length adapter's
human-readable path are accepted exactly when their length is `N`, in
which case they are passed unchanged to `from_bytes`; otherwise the result
is `invalid_length(len, "hex-encoded byte array of length N")`. -/
theorem C10_const_human_byte_path {T : Type} (N : Nat)
    (stub : ConstHexStub T N) (b c : List Nat)
    (hb : b.length = N) (hc : c.length ≠ N) :
    ConstHex.deserialize stub true (.bytes b)
      = (stub.fromBytes b).mapError DeError.custom ∧
    ConstHex.deserialize stub true (.bytes c)
      = .error (.invalidLength c.length (ConstHex.hexVisitorExpecting N)) := by
  constructor
  · show (ConstHex.hexVisitorVisitBytes N b).bind
        (fun bytes => (stub.fromBytes bytes).mapError DeError.custom)
      = (stub.fromBytes b).mapError DeError.custom
    unfold ConstHex.hexVisitorVisitBytes
    rw [if_pos hb]
    rfl
  · show (ConstHex.hexVisitorVisitBytes N c).bind
        (fun bytes => (stub.fromBytes bytes).mapError DeError.custom)
      = .error (.invalidLength c.length (ConstHex.hexVisitorExpecting N))
    unfold ConstHex.hexVisitorVisitBytes
    rw [if_neg hc]
    rfl

/-- Witness for C10 at `N = 2`. -/
theorem C10_const_human_byte_path_witness :
    ([171, 205] : List Nat).length = 2 ∧
    ([1, 2, 3] : List Nat).length ≠ 2 ∧
    ConstHex.deserialize unitConstHexStub true (.bytes [171, 205])
      = (unitConstHexStub.fromBytes [171, 205]).mapError DeError.custom ∧
    ConstHex.deserialize unitConstHexStub true (.bytes [1, 2, 3])
      = .error (.invalidLength 3 (ConstHex.hexVisitorExpecting 2)) := by
  have h := C10_const_human_byte_path 2 unitConstHexStub [171, 205]
    [1, 2, 3] (by decide) (by decide)
  exact ⟨by decide, by decide, h.1, h.2⟩
